import Mathlib

/-!
Verification development for the SmartSubs repository.

The repository is a command-line transcription pipeline with three Python
source files:

  * `main.py`       — class-based entry point (`AudioTranscriber`, `main`)
  * `transcribe.py` — script-style entry point with the same pipeline
  * `video_split.py` — audio demuxing helpers built on the `av` library

This file is a shallow embedding of those sources.  External effects
(model streaming, file upload, container probing, writes to disk) are
modelled as oracle inputs (`World`, per-attempt chunk streams) and as an
explicit event trace (`Event`).  `pathlib.PurePosixPath` operations used
by the code (`name`, `stem`, `suffix`, `with_suffix`) are embedded over
`List Char`, following the CPython implementation; `with_suffix` returns
`Option` because Python raises `ValueError` on an empty name or an
invalid suffix argument.
-/

namespace SmartSubs

/-! ## Characters and small string helpers -/

/-- A single ASCII apostrophe, used inside message strings. -/
def squote : String := String.singleton (Char.ofNat 39)

theorem str_data_append (s t : String) : (s ++ t).data = s.data ++ t.data := by
  cases s; cases t; rfl

theorem str_append_assoc (s t u : String) : s ++ t ++ u = s ++ (t ++ u) := by
  cases s; cases t; cases u
  show String.mk _ = String.mk _
  simp [String.append]

theorem str_append_empty (s : String) : s ++ "" = s := by
  cases s
  show String.mk _ = String.mk _
  simp [String.append]

theorem str_empty_append (s : String) : "" ++ s = s := by
  cases s
  show String.mk _ = String.mk _
  simp [String.append]

/-- ASCII case-folding table for the model of Python `str.lower`
(non-ASCII case folding is not used by the repository's data). -/
def upper_to_lower : List (Char × Char) :=
  [('A', 'a'), ('B', 'b'), ('C', 'c'), ('D', 'd'), ('E', 'e'), ('F', 'f'),
   ('G', 'g'), ('H', 'h'), ('I', 'i'), ('J', 'j'), ('K', 'k'), ('L', 'l'),
   ('M', 'm'), ('N', 'n'), ('O', 'o'), ('P', 'p'), ('Q', 'q'), ('R', 'r'),
   ('S', 's'), ('T', 't'), ('U', 'u'), ('V', 'v'), ('W', 'w'), ('X', 'x'),
   ('Y', 'y'), ('Z', 'z')]

/-- ASCII model of Python `str.lower` on a single character. -/
def lowerChar (ch : Char) : Char := ((upper_to_lower.lookup ch).getD ch)

theorem lookup_mem_pairs :
    ∀ {l : List (Char × Char)} {k v : Char}, l.lookup k = some v → (k, v) ∈ l := by
  intro l
  induction l with
  | nil => intro k v h; simp [List.lookup] at h
  | cons p ps ih =>
    intro k v h
    rcases p with ⟨a, b⟩
    simp only [List.lookup] at h
    cases hk : k == a with
    | true =>
      simp only [hk] at h
      have h1 : k = a := by simpa using hk
      have h2 : b = v := by simpa using h
      subst h1; subst h2
      exact List.mem_cons_self _ _
    | false =>
      simp only [hk] at h
      exact List.mem_cons_of_mem _ (ih h)

theorem lowerChar_eq_slash {ch : Char} (h : lowerChar ch = '/') : ch = '/' := by
  unfold lowerChar at h
  cases hl : upper_to_lower.lookup ch with
  | none => rw [hl] at h; exact h
  | some v =>
    rw [hl] at h
    simp only [Option.getD_some] at h
    subst h
    have hmem := lookup_mem_pairs hl
    have h2 : ∀ p ∈ upper_to_lower, p.2 ≠ '/' := by decide
    exact absurd rfl (h2 _ hmem)

/-! ## A model of `pathlib.PurePosixPath` (`name`, `stem`, `suffix`,
`with_suffix`), following the CPython implementation. -/

/-- Split a character list on a separator, keeping empty pieces. -/
def splitOnChar (sep : Char) : List Char → List (List Char)
  | [] => [[]]
  | c :: cs =>
    match splitOnChar sep cs with
    | [] => if c = sep then [[], []] else [[c]]
    | h :: t => if c = sep then [] :: h :: t else (c :: h) :: t

theorem splitOnChar_cons (sep c : Char) (cs : List Char) :
    splitOnChar sep (c :: cs) =
      match splitOnChar sep cs with
      | [] => if c = sep then [[], []] else [[c]]
      | hd :: tl => if c = sep then [] :: hd :: tl else (c :: hd) :: tl := rfl

theorem splitOnChar_ne_nil (sep : Char) (l : List Char) : splitOnChar sep l ≠ [] := by
  cases l with
  | nil => simp [splitOnChar]
  | cons c cs =>
    rw [splitOnChar_cons]
    split <;> split <;> simp

theorem splitOnChar_pieces {sep : Char} :
    ∀ {l : List Char} {piece : List Char}, piece ∈ splitOnChar sep l → sep ∉ piece := by
  intro l
  induction l with
  | nil => intro piece h; simp [splitOnChar] at h; simp [h]
  | cons c cs ih =>
    intro piece h
    rw [splitOnChar_cons] at h
    rcases hs : splitOnChar sep cs with _ | ⟨hd, tl⟩
    · exact absurd hs (splitOnChar_ne_nil sep cs)
    · simp only [hs] at h
      by_cases hc : c = sep
      · rw [if_pos hc] at h
        rcases List.mem_cons.mp h with h1 | h1
        · simp [h1]
        · exact ih (hs ▸ h1)
      · rw [if_neg hc] at h
        rcases List.mem_cons.mp h with h1 | h1
        · subst h1
          intro hmem
          rcases List.mem_cons.mp hmem with h2 | h2
          · exact hc h2.symm
          · have hhd : hd ∈ splitOnChar sep cs := by
              rw [hs]; exact List.mem_cons_self hd tl
            exact ih hhd h2
        · have hp : piece ∈ splitOnChar sep cs := by
            rw [hs]; exact List.mem_cons_of_mem hd h1
          exact ih hp

theorem splitOnChar_no_sep {sep : Char} :
    ∀ {l : List Char}, sep ∉ l → splitOnChar sep l = [l] := by
  intro l
  induction l with
  | nil => intro _; rfl
  | cons c cs ih =>
    intro h
    have hc : c ≠ sep := fun hh => h (hh ▸ List.mem_cons_self c cs)
    have hcs : sep ∉ cs := fun hh => h (List.mem_cons_of_mem c hh)
    rw [splitOnChar_cons, ih hcs]
    simp only [if_neg hc]

/-- Join path components with a slash separator (inverse of splitting). -/
def joinParts : List (List Char) → List Char
  | [] => []
  | [p] => p
  | p :: ps => p ++ '/' :: joinParts ps

theorem joinParts_cons_cons (p r0 : List Char) (rs : List (List Char)) :
    joinParts (p :: r0 :: rs) = p ++ '/' :: joinParts (r0 :: rs) := rfl

theorem joinParts_concat (ps : List (List Char)) (q : List Char) :
    ∃ r, joinParts (ps ++ [q]) = r ++ q := by
  induction ps with
  | nil => exact ⟨[], rfl⟩
  | cons p ps ih =>
    rcases ih with ⟨r, hr⟩
    cases ps with
    | nil =>
      refine ⟨p ++ ['/'], ?_⟩
      show p ++ '/' :: joinParts [q] = p ++ ['/'] ++ q
      show p ++ '/' :: q = p ++ ['/'] ++ q
      simp
    | cons p' ps' =>
      refine ⟨p ++ '/' :: r, ?_⟩
      rw [show (p :: p' :: ps') ++ [q] = p :: ((p' :: ps') ++ [q]) from rfl]
      rw [show (p' :: ps') ++ [q] = p' :: (ps' ++ [q]) from rfl]
      rw [joinParts_cons_cons]
      rw [show p' :: (ps' ++ [q]) = (p' :: ps') ++ [q] from rfl, hr]
      simp

/-- The normalized components of a POSIX path: split on `'/'`, dropping
empty components and `'.'` components (as `pathlib` does). -/
def pathParts (p : String) : List (List Char) :=
  (splitOnChar '/' p.data).filter (fun l => !l.isEmpty && !(l == ['.']))

/-- Model of `PurePosixPath(p).name`, as a character list (empty for paths with no
final component). -/
def pathNameChars (p : String) : List Char :=
  ((pathParts p).getLast?).getD []

/-- Index of the last occurrence of a character, as CPython `str.rfind`. -/
def rfindIdx (c : Char) : List Char → Option Nat
  | [] => none
  | x :: xs =>
    match rfindIdx c xs with
    | some i => some (i + 1)
    | none => if x = c then some 0 else none

/-- The `PurePosixPath` suffix of a final component `name`: `name[i:]` when
`i = name.rfind('.')` satisfies `0 < i < len(name) - 1`, else empty. -/
def nameSuffix (name : List Char) : List Char :=
  match rfindIdx '.' name with
  | some i => if 0 < i ∧ i < name.length - 1 then name.drop i else []
  | none => []

/-- The `PurePosixPath` stem of a final component. -/
def nameStem (name : List Char) : List Char :=
  match rfindIdx '.' name with
  | some i => if 0 < i ∧ i < name.length - 1 then name.take i else name
  | none => name

/-- Model of `PurePosixPath(p).stem`, as a string. -/
def pathStem (p : String) : String := String.mk (nameStem (pathNameChars p))

/-- The root of a POSIX path (the double-slash special root is not
modelled; the repository never constructs such paths). -/
def pathRoot (p : String) : String :=
  match p.data with
  | '/' :: _ => "/"
  | _ => ""

/-- Validity of the suffix argument of `with_suffix`: Python raises
`ValueError` when the suffix contains a separator, or is nonempty
without a leading dot, or is a bare dot. -/
def suffixArgOk (s : String) : Bool :=
  !(s.data.contains '/') &&
    (s.data.isEmpty || ((s.data.head? == some '.') && !(s.data == ['.'])))

/-- Model of `PurePosixPath(p).with_suffix(s)`: `none` models a raised
`ValueError` (invalid suffix argument or empty name). -/
def pathWithSuffix (p : String) (s : String) : Option String :=
  if suffixArgOk s = false then none
  else
    match (pathParts p).getLast? with
    | none => none
    | some name =>
      let old := nameSuffix name
      let newName :=
        if old.isEmpty then name ++ s.data
        else name.take (name.length - old.length) ++ s.data
      some (pathRoot p ++ String.mk (joinParts ((pathParts p).dropLast ++ [newName])))

/-! ## Messages, streamed chunks, and the event trace -/

inductive Message where
  | system (text : String)
  | humanMedia (file_uri mime_type : String)
  | human (text : String)
  | ai (text : String)
deriving DecidableEq

/-- The `content` attribute.  A media message carries a structured list
in Python; the code never reads it as text, so it is rendered empty. -/
def Message.text : Message → String
  | .system t => t
  | .humanMedia _ _ => ""
  | .human t => t
  | .ai t => t

/-- Model of `messages[-1].content`; the lists produced by the pipeline are
never empty at the read sites. -/
def lastText (messages : List Message) : String :=
  ((messages.getLast?).getD (Message.ai "")).text

/-- One streamed chunk.  `content = ""` models a chunk whose `content`
attribute is absent or falsy; `finish_reason = some r` models
`response_metadata` containing a `finish_reason` key. -/
structure Chunk where
  content : String
  finish_reason : Option String
deriving DecidableEq

/-- One pass of the `async for chunk in self.model.astream(messages)`
loop: accumulate the content of truthy chunks, keep the last finish
reason seen (both accumulators start at `""`). -/
def foldChunks : List Chunk → String × String → String × String
  | [], st => st
  | ch :: rest, (cur, fr) =>
    foldChunks rest
      (if ch.content ≠ "" then cur ++ ch.content else cur,
       match ch.finish_reason with | some r => r | none => fr)

/-- The `current_response` produced by the `i`-th streaming attempt. -/
def attemptText (stream : Nat → List Chunk) (i : Nat) : String :=
  (foldChunks (stream i) ("", "")).1

/-- The `finish_reason` left by the `i`-th streaming attempt. -/
def attemptFinish (stream : Nat → List Chunk) (i : Nat) : String :=
  (foldChunks (stream i) ("", "")).2

/-- Externally visible effects of a run. -/
inductive Event where
  | printError (msg : String)
  | exitCode (code : Nat)
  | extractAudio (src dst : String)
  | uploadFile (path : String)
  | modelCall (messages : List Message)
  | writeFile (path content : String)
deriving DecidableEq

/-! ## video_split.py -/

namespace VideoSplit

def extension_map : List (String × String) :=
  [("aac", "aac"), ("mp3", "mp3"), ("ac3", "ac3"), ("opus", "opus"),
   ("vorbis", "ogg"), ("flac", "flac"), ("pcm_s16le", "wav")]

/-- Model of `extension_map.get(codec_name, codec_name)`. -/
def get_output_extension (codec_name : String) : String :=
  ((extension_map.lookup codec_name).getD codec_name)

/-- Function `get_audio_codec` opens the container and raises when it has no
audio stream; the probed codec is an oracle input (`none` models "No
audio streams found"). -/
def get_audio_codec (audio_codec : Option String) : Except String String :=
  match audio_codec with
  | none => Except.error "No audio streams found"
  | some codec_name => Except.ok codec_name

/-- Model of `PurePath(video_path).with_suffix(f".{output_extension}")`. -/
def get_output_path (audio_codec : Option String) (video_path : String) :
    Except String String :=
  match get_audio_codec audio_codec with
  | Except.error e => Except.error e
  | Except.ok codec_name =>
    match pathWithSuffix video_path ("." ++ get_output_extension codec_name) with
    | none => Except.error "ValueError"
    | some output_path => Except.ok output_path

/-- Exceptions that can escape the demux/mux body of `extract_audio`. -/
inductive PyError where
  | fileNotFoundError (msg : String)
  | indexError (msg : String)
  | otherError (msg : String)
deriving DecidableEq

def PyError.text : PyError → String
  | .fileNotFoundError m => m
  | .indexError m => m
  | .otherError m => m

def extracting_message (audio_path : String) : String :=
  "Extracting audio to " ++ squote ++ audio_path ++ squote ++ "..."

/-- Function `extract_audio`: the demux/mux outcome of the `try` body is an
oracle input.  The `except` clauses are tried in Python order:
`FileNotFoundError` first, then the blanket `except Exception` — which
also catches `IndexError`, so the final `except IndexError` clause is
dead code.  Returns the Boolean result with the printed lines. -/
def extract_audio (video_path audio_path : String) (outcome : Except PyError Unit) :
    Bool × List String :=
  match outcome with
  | Except.ok _ => (true, [extracting_message audio_path])
  | Except.error e =>
    match e with
    | PyError.fileNotFoundError _ =>
      (false, [extracting_message audio_path,
               "Error: File " ++ squote ++ video_path ++ squote ++ " not found."])
    | e =>
      (false, [extracting_message audio_path,
               "An error occurred during extraction: " ++ e.text])

end VideoSplit

/-! ## Command line and world oracle, shared by both entry points -/

/-- A raw command line: the positional file, whether `--no-translate`
was passed, the optional `--language` value, and whether
`--disable-merge-sign` was passed (parsed by main.py only). -/
structure CmdLine where
  file : String
  noTranslate : Bool
  languageOpt : Option String
  disableMergeSign : Bool

structure Args where
  file : String
  translate : Bool
  language : String
  disable_merge_sign : Bool

/-- The argparse configuration of both entry points: `--no-translate`
stores `false` into `translate` (default `true`), and `--language`
defaults to `'English'`. -/
def parseArgs (c : CmdLine) : Args :=
  { file := c.file
    translate := !c.noTranslate
    language := c.languageOpt.getD "English"
    disable_merge_sign := c.disableMergeSign }

/-- Oracle inputs standing for the outside world: filesystem probing,
container probing, the upload result, and the chunks streamed by the
model on the `i`-th attempt of each `get_complete_response` session. -/
structure World where
  fileExists : Bool
  isVideo : Bool
  audioCodec : Option String
  fileUri : String
  mimeType : String
  transcriptionStream : Nat → List Chunk
  translationStream : Nat → List Chunk

/-- Model of `language.lower().replace(' ', '_')` (lowering leaves `' '` fixed,
so the two passes fuse into one map over the characters). -/
def lang_suffix (language : String) : String :=
  String.mk (language.data.map (fun ch => if ch = ' ' then '_' else lowerChar ch))

def file_error_message (file : String) : String :=
  "Error: File " ++ squote ++ file ++ squote ++ " does not exist."

/-! ## main.py -/

namespace MainPy

def TranscriptionConfig.model_name : String := "gemini-2.5-flash"

def TranscriptionConfig.max_continuations : Nat := 10

/-- The separator `'=' * 24`. -/
def TranscriptionConfig.separator : String := String.mk (List.replicate 24 '=')

/-- The merge sign `'\n' + separator + 'MERGED' + separator + '\n'`. -/
def TranscriptionConfig.merge_sign : String :=
  "\n" ++ TranscriptionConfig.separator ++ "MERGED" ++ TranscriptionConfig.separator ++ "\n"

/-- First line of the system prompt.  The remaining prompt prose is
opaque data to every claim about this program and is not carried. -/
def Prompts.DEFAULT_SYSTEM_MESSAGE : String :=
  "Input: Audio file of a podcast with Japanese language and multiple speakers."

def Prompts.DEFAULT_CONTINUE_MESSAGE : String :=
  "Continue from where you left off. Continue the transcription/translation exactly where it was cut off."

/-- Model of `DEFAULT_TRANSLATION_PROMPT.format(target_language=...)`. -/
def Prompts.translation_prompt (target_language : String) : String :=
  "Translate the above content to " ++ target_language ++ ", output a proper .srt file."

def AudioTranscriber.TRUNCATED_FINISH_REASONS : List String :=
  ["MAX_TOKENS", "SAFETY", "BLOCKLIST", "PROHIBITED_CONTENT"]

/-- Membership test `finish_reason in AudioTranscriber.TRUNCATED_FINISH_REASONS`. -/
def AudioTranscriber.is_response_truncated (finish_reason : String) : Bool :=
  AudioTranscriber.TRUNCATED_FINISH_REASONS.contains finish_reason

/-- The while-loop of `AudioTranscriber.get_complete_response`.  State:
current messages list, accumulated `complete_response`, and
`continuation_count`.  `fuel` bounds the remaining iterations; started
at `max_continuations + 1` it is never exhausted, because the loop
always leaves through its `break` (so the `while continuation_count <=
max_continuations` guard is always true when checked, and the source's
final `continuation_count > max_continuations` warning is dead code).
Returns the messages, the final `continuation_count`, and one
`modelCall` event (recording the messages passed to `astream`) per
streaming attempt. -/
def AudioTranscriber.get_complete_response_loop (stream : Nat → List Chunk)
    (max_continuations : Nat) (merge_sign : String) :
    List Message → String → Nat → Nat → List Message × Nat × List Event
  | messages, _, continuation_count, 0 => (messages, continuation_count, [])
  | messages, complete_response, continuation_count, fuel + 1 =>
    if AudioTranscriber.is_response_truncated (attemptFinish stream continuation_count) = false
        ∨ max_continuations ≤ continuation_count then
      (messages ++ [Message.ai (complete_response ++
          (merge_sign ++ attemptText stream continuation_count))],
       continuation_count,
       [Event.modelCall messages])
    else
      let r := AudioTranscriber.get_complete_response_loop stream max_continuations merge_sign
        (messages ++ [Message.ai (attemptText stream continuation_count),
                      Message.human Prompts.DEFAULT_CONTINUE_MESSAGE])
        (complete_response ++ (merge_sign ++ attemptText stream continuation_count))
        (continuation_count + 1) fuel
      (r.1, r.2.1, Event.modelCall messages :: r.2.2)

/-- Wrapper `AudioTranscriber.get_complete_response`; `max_continuations` and
`disable_merge_sign` come from `self`. -/
def AudioTranscriber.get_complete_response (stream : Nat → List Chunk)
    (max_continuations : Nat) (disable_merge_sign : Bool)
    (messages : List Message) : List Message × Nat × List Event :=
  AudioTranscriber.get_complete_response_loop stream max_continuations
    (if disable_merge_sign then "" else TranscriptionConfig.merge_sign)
    messages "" 0 (max_continuations + 1)

/-- Method `save_to_srt`: opens `filename.with_suffix(".srt")` and writes
`transcript_data`.  Returns the written (path, content) pair; `none`
models the `ValueError` raised by `with_suffix` on an empty name. -/
def AudioTranscriber.save_to_srt (transcript_data : String) (filename : String) :
    Option (String × String) :=
  (pathWithSuffix filename ".srt").map
    (fun output_filename => (output_filename, transcript_data))

/-- Method `prepare_file`: pass non-video input through; for video, extract
audio to `get_output_path(file_path)` (the Boolean result of
`extract_audio` is ignored by the source). -/
def AudioTranscriber.prepare_file (is_video : Bool) (audio_codec : Option String)
    (file_path : String) : Except String (String × List Event) :=
  if is_video = false then Except.ok (file_path, [])
  else
    match VideoSplit.get_output_path audio_codec file_path with
    | Except.error e => Except.error e
    | Except.ok output_audio =>
      Except.ok (output_audio, [Event.extractAudio file_path output_audio])

/-- Method `AudioTranscriber.transcribe`: upload, run the continuation loop on
`[system, audio]` (a copy), save `messages[-1].content`, return the
messages. -/
def AudioTranscriber.transcribe (stream : Nat → List Chunk) (max_continuations : Nat)
    (disable_merge_sign : Bool) (filename : String) (file_uri mime_type : String) :
    Except String (List Event × List Message) :=
  let r := AudioTranscriber.get_complete_response stream max_continuations disable_merge_sign
    [Message.system Prompts.DEFAULT_SYSTEM_MESSAGE, Message.humanMedia file_uri mime_type]
  match AudioTranscriber.save_to_srt (lastText r.1) filename with
  | none => Except.error "ValueError"
  | some (output_filename, content) =>
    Except.ok (Event.uploadFile filename ::
      (r.2.2 ++ [Event.writeFile output_filename content]), r.1)

/-- Model of `pathlib.Path(filename.stem + f"_{lang_suffix}")` in
`AudioTranscriber.translate`. -/
def AudioTranscriber.translation_output_filename (filename : String)
    (target_language : String) : String :=
  pathStem filename ++ "_" ++ lang_suffix target_language

/-- Method `AudioTranscriber.translate`: append the translation prompt, run the
continuation loop, save `messages[-1].content` under the derived output
filename. -/
def AudioTranscriber.translate (stream : Nat → List Chunk) (max_continuations : Nat)
    (disable_merge_sign : Bool) (filename : String) (target_language : String)
    (messages : List Message) : Except String (List Event × List Message) :=
  let r := AudioTranscriber.get_complete_response stream max_continuations disable_merge_sign
    (messages ++ [Message.human (Prompts.translation_prompt target_language)])
  match AudioTranscriber.save_to_srt (lastText r.1)
      (AudioTranscriber.translation_output_filename filename target_language) with
  | none => Except.error "ValueError"
  | some (output_filename, content) =>
    Except.ok (r.2.2 ++ [Event.writeFile output_filename content], r.1)

/-- Function `main()` of main.py: validate the path (printing and exiting with
status 1 when it does not exist), then prepare the file, transcribe,
and translate unless `--no-translate`.  (`AudioTranscriber.__init__`
only constructs the model client; it performs no model call and emits
no event.)  `Except.error` models an uncaught Python exception. -/
def main (c : CmdLine) (w : World) : Except String (List Event) :=
  let args := parseArgs c
  if w.fileExists = false then
    Except.ok [Event.printError (file_error_message args.file), Event.exitCode 1]
  else
    match AudioTranscriber.prepare_file w.isVideo w.audioCodec args.file with
    | Except.error e => Except.error e
    | Except.ok (processed_file, prep_events) =>
      match AudioTranscriber.transcribe w.transcriptionStream
          TranscriptionConfig.max_continuations args.disable_merge_sign
          processed_file w.fileUri w.mimeType with
      | Except.error e => Except.error e
      | Except.ok (transcribe_events, messages) =>
        if args.translate then
          match AudioTranscriber.translate w.translationStream
              TranscriptionConfig.max_continuations args.disable_merge_sign
              processed_file args.language messages with
          | Except.error e => Except.error e
          | Except.ok (translate_events, _) =>
            Except.ok (prep_events ++ transcribe_events ++ translate_events)
        else
          Except.ok (prep_events ++ transcribe_events)

end MainPy

/-! ## transcribe.py -/

namespace TranscribePy

def model_name : String := "gemini-2.5-flash"

/-- Default of the `max_continuations` parameter of
`get_complete_response`. -/
def default_max_continuations : Nat := 10

/-- First line of the module-level system prompt (the remaining prose is
opaque data to every claim). -/
def system_message : String :=
  "Input: Audio file of a podcast with Japanese language and multiple speakers."

def truncated_finish_reasons : List String :=
  ["MAX_TOKENS", "SAFETY", "BLOCKLIST", "PROHIBITED_CONTENT"]

/-- Model of `if finish_reason in truncated_finish_reasons: return True else:
return False`. -/
def is_response_truncated (finish_reason : String) : Bool :=
  if truncated_finish_reasons.contains finish_reason then true else false

/-- The while-loop of transcribe.py's `get_complete_response`; identical
to main.py's except that `complete_response += current_response` adds no
merge sign.  See `MainPy.AudioTranscriber.get_complete_response_loop`
for the fuel discipline. -/
def get_complete_response_loop (stream : Nat → List Chunk) (max_continuations : Nat) :
    List Message → String → Nat → Nat → List Message × Nat × List Event
  | messages, _, continuation_count, 0 => (messages, continuation_count, [])
  | messages, complete_response, continuation_count, fuel + 1 =>
    if is_response_truncated (attemptFinish stream continuation_count) = false
        ∨ max_continuations ≤ continuation_count then
      (messages ++ [Message.ai (complete_response ++ attemptText stream continuation_count)],
       continuation_count,
       [Event.modelCall messages])
    else
      let r := get_complete_response_loop stream max_continuations
        (messages ++ [Message.ai (attemptText stream continuation_count),
          Message.human "Continue from where you left off. Continue the transcription/translation exactly where it was cut off."])
        (complete_response ++ attemptText stream continuation_count)
        (continuation_count + 1) fuel
      (r.1, r.2.1, Event.modelCall messages :: r.2.2)

def get_complete_response (stream : Nat → List Chunk) (messages : List Message)
    (max_continuations : Nat) : List Message × Nat × List Event :=
  get_complete_response_loop stream max_continuations messages "" 0 (max_continuations + 1)

/-- Function `save_to_srt`; `transcript_data` is a string at every call site, so
the `isinstance(transcript_data, str)` branch is the one taken. -/
def save_to_srt (transcript_data : String) (filename : String) :
    Option (String × String) :=
  (pathWithSuffix filename ".srt").map
    (fun output_filename => (output_filename, transcript_data))

/-- Function `prepare_file` (line for line the same as main.py's). -/
def prepare_file (is_video : Bool) (audio_codec : Option String)
    (file_path : String) : Except String (String × List Event) :=
  if is_video = false then Except.ok (file_path, [])
  else
    match VideoSplit.get_output_path audio_codec file_path with
    | Except.error e => Except.error e
    | Except.ok output_audio =>
      Except.ok (output_audio, [Event.extractAudio file_path output_audio])

/-- Function `transcribe`. -/
def transcribe (stream : Nat → List Chunk) (filename : String)
    (file_uri mime_type : String) : Except String (List Event × List Message) :=
  let r := get_complete_response stream
    [Message.system system_message, Message.humanMedia file_uri mime_type]
    default_max_continuations
  match save_to_srt (lastText r.1) filename with
  | none => Except.error "ValueError"
  | some (output_filename, content) =>
    Except.ok (Event.uploadFile filename ::
      (r.2.2 ++ [Event.writeFile output_filename content]), r.1)

/-- Model of `pathlib.Path(filename.stem + f"_{lang_suffix}")` in `translate`. -/
def translation_output_filename (filename : String) (language : String) : String :=
  pathStem filename ++ "_" ++ lang_suffix language

/-- The `trans_prompt` f-string in `translate`. -/
def trans_prompt (language : String) : String :=
  "Translate the above content to " ++ language ++ ", output a proper .srt file."

/-- Function `translate`. -/
def translate (stream : Nat → List Chunk) (filename : String) (language : String)
    (messages : List Message) : Except String (List Event × List Message) :=
  let r := get_complete_response stream
    (messages ++ [Message.human (trans_prompt language)]) default_max_continuations
  match save_to_srt (lastText r.1) (translation_output_filename filename language) with
  | none => Except.error "ValueError"
  | some (output_filename, content) =>
    Except.ok (r.2.2 ++ [Event.writeFile output_filename content], r.1)

/-- The `__main__` block of transcribe.py: parse (no
`--disable-merge-sign` option exists here, so that field of `CmdLine`
is ignored), validate the file path, then run `main(file, translate,
language)`.  The module-level `init_chat_model` call constructs the
client only; it performs no model call and emits no event. -/
def entry (c : CmdLine) (w : World) : Except String (List Event) :=
  let args := parseArgs c
  if w.fileExists = false then
    Except.ok [Event.printError (file_error_message args.file), Event.exitCode 1]
  else
    match prepare_file w.isVideo w.audioCodec args.file with
    | Except.error e => Except.error e
    | Except.ok (processed_file, prep_events) =>
      match transcribe w.transcriptionStream processed_file w.fileUri w.mimeType with
      | Except.error e => Except.error e
      | Except.ok (transcribe_events, messages) =>
        if args.translate then
          match translate w.translationStream processed_file args.language messages with
          | Except.error e => Except.error e
          | Except.ok (translate_events, _) =>
            Except.ok (prep_events ++ transcribe_events ++ translate_events)
        else
          Except.ok (prep_events ++ transcribe_events)

end TranscribePy

/-! ## Derived forms of the loop results, and the loop invariant -/

/-- Concatenation of the outputs of attempts `i, …, i+k-1`, each
prefixed with `sign` — the shape `complete_response` takes in main.py. -/
def mergeConcat (stream : Nat → List Chunk) (sign : String) : Nat → Nat → String
  | _, 0 => ""
  | i, k + 1 => (sign ++ attemptText stream i) ++ mergeConcat stream sign (i + 1) k

/-- Plain concatenation of the outputs of attempts `i, …, i+k-1`. -/
def concatSegs (stream : Nat → List Chunk) : Nat → Nat → String
  | _, 0 => ""
  | i, k + 1 => attemptText stream i ++ concatSegs stream (i + 1) k

/-- The (assistant, continue-prompt) message pairs appended by attempts
`i, …, i+k-1` when each of them is truncated. -/
def contTrail (stream : Nat → List Chunk) (cont_msg : String) : Nat → Nat → List Message
  | _, 0 => []
  | i, k + 1 =>
    Message.ai (attemptText stream i) :: Message.human cont_msg ::
      contTrail stream cont_msg (i + 1) k

/-- The `modelCall` events of attempts `i, …, i+k-1`, starting from the
messages list `base`. -/
def attemptCalls (stream : Nat → List Chunk) (cont_msg : String) :
    List Message → Nat → Nat → List Event
  | _, _, 0 => []
  | base, i, k + 1 =>
    Event.modelCall base ::
      attemptCalls stream cont_msg
        (base ++ [Message.ai (attemptText stream i), Message.human cont_msg]) (i + 1) k

/-- The (path, content) pairs written by a trace, in order. -/
def writesOf (events : List Event) : List (String × String) :=
  events.filterMap (fun e =>
    match e with
    | Event.writeFile p c => some (p, c)
    | _ => none)

/-- Pipeline work: demuxing, uploading, calling the model, or writing a
file. -/
def pipelineWork : Event → Bool
  | Event.extractAudio _ _ => true
  | Event.uploadFile _ => true
  | Event.modelCall _ => true
  | Event.writeFile _ _ => true
  | _ => false

theorem mergeConcat_empty_sign (stream : Nat → List Chunk) :
    ∀ (k i : Nat), mergeConcat stream "" i k = concatSegs stream i k := by
  intro k
  induction k with
  | zero => intro i; rfl
  | succ k ih =>
    intro i
    simp only [mergeConcat, concatSegs, str_empty_append, ih]

theorem contTrail_length (stream : Nat → List Chunk) (cm : String) :
    ∀ (k i : Nat), (contTrail stream cm i k).length = 2 * k := by
  intro k
  induction k with
  | zero => intro i; rfl
  | succ k ih =>
    intro i
    simp only [contTrail, List.length_cons, ih]
    omega

theorem attemptCalls_length (stream : Nat → List Chunk) (cm : String) :
    ∀ (k : Nat) (base : List Message) (i : Nat),
      (attemptCalls stream cm base i k).length = k := by
  intro k
  induction k with
  | zero => intro base i; rfl
  | succ k ih =>
    intro base i
    simp only [attemptCalls, List.length_cons, ih]

theorem writesOf_append (a b : List Event) :
    writesOf (a ++ b) = writesOf a ++ writesOf b := by
  simp [writesOf]

theorem writesOf_attemptCalls (stream : Nat → List Chunk) (cm : String) :
    ∀ (k : Nat) (base : List Message) (i : Nat),
      writesOf (attemptCalls stream cm base i k) = [] := by
  intro k
  induction k with
  | zero => intro base i; rfl
  | succ k ih =>
    intro base i
    simp only [attemptCalls, writesOf, List.filterMap_cons]
    exact ih _ _

theorem mem_attemptCalls (stream : Nat → List Chunk) (cm : String) :
    ∀ {k : Nat} {base : List Message} {i : Nat} {ev : Event},
      ev ∈ attemptCalls stream cm base i k →
      ∃ j, ev = Event.modelCall (base ++ contTrail stream cm i j) := by
  intro k
  induction k with
  | zero => intro base i ev h; simp [attemptCalls] at h
  | succ k ih =>
    intro base i ev h
    rcases List.mem_cons.mp h with h1 | h1
    · exact ⟨0, by simpa [contTrail] using h1⟩
    · rcases ih h1 with ⟨j, hj⟩
      exact ⟨j + 1, by simpa [contTrail, List.append_assoc] using hj⟩

theorem mem_contTrail (stream : Nat → List Chunk) (cm : String) :
    ∀ {k i : Nat} {m : Message},
      m ∈ contTrail stream cm i k →
      (∃ j, m = Message.ai (attemptText stream j)) ∨ m = Message.human cm := by
  intro k
  induction k with
  | zero => intro i m h; simp [contTrail] at h
  | succ k ih =>
    intro i m h
    simp only [contTrail, List.mem_cons] at h
    rcases h with h | h | h
    · exact Or.inl ⟨i, h⟩
    · exact Or.inr h
    · exact ih h

/-- Invariant of main.py's continuation loop: starting from
`continuation_count = c` with enough fuel, the loop stops at the first
attempt `n ≥ c` whose finish reason is not truncating (or at
`n = max_continuations`), having appended one (partial response,
continue prompt) pair per truncated attempt, a final assistant message
carrying the sign-prefixed concatenation of every attempt's output, and
having performed exactly `n - c + 1` streaming attempts. -/
theorem gcr_loop_spec (stream : Nat → List Chunk) (maxc : Nat) (sign : String) :
    ∀ (fuel c : Nat) (acc : String) (msgs : List Message),
    c ≤ maxc → maxc + 1 ≤ c + fuel →
    ∃ n, c ≤ n ∧ n ≤ maxc ∧
      (∀ i, c ≤ i → i < n →
        MainPy.AudioTranscriber.is_response_truncated (attemptFinish stream i) = true) ∧
      (MainPy.AudioTranscriber.is_response_truncated (attemptFinish stream n) = false ∨
        maxc ≤ n) ∧
      MainPy.AudioTranscriber.get_complete_response_loop stream maxc sign msgs acc c fuel =
        (msgs ++ contTrail stream MainPy.Prompts.DEFAULT_CONTINUE_MESSAGE c (n - c) ++
           [Message.ai (acc ++ mergeConcat stream sign c (n + 1 - c))],
         n,
         attemptCalls stream MainPy.Prompts.DEFAULT_CONTINUE_MESSAGE msgs c (n + 1 - c)) := by
  intro fuel
  induction fuel with
  | zero => intro c acc msgs hc hf; omega
  | succ fuel ih =>
    intro c acc msgs hc hf
    by_cases h : MainPy.AudioTranscriber.is_response_truncated (attemptFinish stream c) = false
        ∨ maxc ≤ c
    · refine ⟨c, Nat.le_refl c, hc, ?_, h, ?_⟩
      · intro i h1 h2; omega
      · simp only [MainPy.AudioTranscriber.get_complete_response_loop, if_pos h]
        rw [Nat.sub_self c, show c + 1 - c = 1 from by omega]
        simp [contTrail, mergeConcat, attemptCalls, str_append_empty]
    · have ht : MainPy.AudioTranscriber.is_response_truncated (attemptFinish stream c) = true := by
        cases hx : MainPy.AudioTranscriber.is_response_truncated (attemptFinish stream c) with
        | false => exact absurd (Or.inl hx) h
        | true => rfl
      have hlt : c < maxc := by
        rcases Nat.lt_or_ge c maxc with h1 | h1
        · exact h1
        · exact absurd (Or.inr h1) h
      obtain ⟨n, h1, h2, h3, h4, heq⟩ :=
        ih (c + 1) (acc ++ (sign ++ attemptText stream c))
          (msgs ++ [Message.ai (attemptText stream c),
                    Message.human MainPy.Prompts.DEFAULT_CONTINUE_MESSAGE])
          (by omega) (by omega)
      refine ⟨n, by omega, h2, ?_, h4, ?_⟩
      · intro i hi1 hi2
        rcases Nat.lt_or_ge i (c + 1) with hi | hi
        · rw [show i = c from by omega]; exact ht
        · exact h3 i hi hi2
      · simp only [MainPy.AudioTranscriber.get_complete_response_loop, if_neg h, heq]
        rw [show n - c = (n - (c + 1)) + 1 from by omega,
            show n + 1 - c = (n + 1 - (c + 1)) + 1 from by omega]
        simp only [contTrail, mergeConcat, attemptCalls]
        rw [show n + 1 - (c + 1) = n - (c + 1) + 1 from by omega]
        simp [List.append_assoc, str_append_assoc]

/-- Characterization of `AudioTranscriber.get_complete_response`. -/
theorem gcr_main_spec (stream : Nat → List Chunk) (maxc : Nat) (dis : Bool)
    (msgs : List Message) :
    ∃ n, n ≤ maxc ∧
      MainPy.AudioTranscriber.get_complete_response stream maxc dis msgs =
        (msgs ++ contTrail stream MainPy.Prompts.DEFAULT_CONTINUE_MESSAGE 0 n ++
           [Message.ai (mergeConcat stream
              (if dis then "" else MainPy.TranscriptionConfig.merge_sign) 0 (n + 1))],
         n,
         attemptCalls stream MainPy.Prompts.DEFAULT_CONTINUE_MESSAGE msgs 0 (n + 1)) := by
  obtain ⟨n, _, h2, _, _, heq⟩ :=
    gcr_loop_spec stream maxc (if dis then "" else MainPy.TranscriptionConfig.merge_sign)
      (maxc + 1) 0 "" msgs (by omega) (by omega)
  refine ⟨n, h2, ?_⟩
  unfold MainPy.AudioTranscriber.get_complete_response
  rw [heq]
  simp [str_empty_append]

/-- The loop's result does not depend on the fuel, as long as the fuel
covers the worst case: the loop terminates through its `break`. -/
theorem gcr_loop_fuel_stable (stream : Nat → List Chunk) (maxc : Nat) (sign : String)
    (msgs : List Message) (f1 f2 : Nat) (h1 : maxc + 1 ≤ f1) (h2 : maxc + 1 ≤ f2) :
    MainPy.AudioTranscriber.get_complete_response_loop stream maxc sign msgs "" 0 f1 =
      MainPy.AudioTranscriber.get_complete_response_loop stream maxc sign msgs "" 0 f2 := by
  obtain ⟨n1, _, hn1, h3a, h4a, he1⟩ :=
    gcr_loop_spec stream maxc sign f1 0 "" msgs (by omega) (by omega)
  obtain ⟨n2, _, hn2, h3b, h4b, he2⟩ :=
    gcr_loop_spec stream maxc sign f2 0 "" msgs (by omega) (by omega)
  have hn : n1 = n2 := by
    by_contra hne
    rcases Nat.lt_or_ge n1 n2 with hlt | hge
    · have ht := h3b n1 (by omega) hlt
      rcases h4a with hf | hm
      · rw [hf] at ht; cases ht
      · omega
    · have hlt2 : n2 < n1 := by omega
      have ht := h3a n2 (by omega) hlt2
      rcases h4b with hf | hm
      · rw [hf] at ht; cases ht
      · omega
  rw [he1, he2, hn]

theorem tr_is_response_truncated_eq (fr : String) :
    TranscribePy.is_response_truncated fr =
      MainPy.AudioTranscriber.is_response_truncated fr := by
  unfold TranscribePy.is_response_truncated MainPy.AudioTranscriber.is_response_truncated
  have h : TranscribePy.truncated_finish_reasons =
      MainPy.AudioTranscriber.TRUNCATED_FINISH_REASONS := rfl
  rw [h]
  cases MainPy.AudioTranscriber.TRUNCATED_FINISH_REASONS.contains fr <;> simp

/-- transcribe.py's loop is main.py's loop with an empty merge sign. -/
theorem tr_loop_eq (stream : Nat → List Chunk) (maxc : Nat) :
    ∀ (fuel : Nat) (msgs : List Message) (acc : String) (c : Nat),
      TranscribePy.get_complete_response_loop stream maxc msgs acc c fuel =
        MainPy.AudioTranscriber.get_complete_response_loop stream maxc "" msgs acc c fuel := by
  intro fuel
  induction fuel with
  | zero => intro msgs acc c; rfl
  | succ fuel ih =>
    intro msgs acc c
    simp only [TranscribePy.get_complete_response_loop,
      MainPy.AudioTranscriber.get_complete_response_loop,
      tr_is_response_truncated_eq, str_empty_append, ih,
      MainPy.Prompts.DEFAULT_CONTINUE_MESSAGE]

/-- Characterization of transcribe.py's `get_complete_response`. -/
theorem gcr_tr_spec (stream : Nat → List Chunk) (maxc : Nat) (msgs : List Message) :
    ∃ n, n ≤ maxc ∧
      TranscribePy.get_complete_response stream msgs maxc =
        (msgs ++ contTrail stream MainPy.Prompts.DEFAULT_CONTINUE_MESSAGE 0 n ++
           [Message.ai (concatSegs stream 0 (n + 1))],
         n,
         attemptCalls stream MainPy.Prompts.DEFAULT_CONTINUE_MESSAGE msgs 0 (n + 1)) := by
  obtain ⟨n, _, h2, _, _, heq⟩ :=
    gcr_loop_spec stream maxc "" (maxc + 1) 0 "" msgs (by omega) (by omega)
  refine ⟨n, h2, ?_⟩
  unfold TranscribePy.get_complete_response
  rw [tr_loop_eq, heq]
  simp [str_empty_append, mergeConcat_empty_sign]

/-! ## Path lemmas -/

theorem mk_data (l : List Char) : (String.mk l).data = l := rfl

theorem list_mem_of_getLast? {α : Type} :
    ∀ {l : List α} {a : α}, l.getLast? = some a → a ∈ l := by
  intro l
  induction l with
  | nil => intro a h; cases h
  | cons x xs ih =>
    intro a h
    cases xs with
    | nil =>
      rw [List.getLast?_singleton] at h
      rw [Option.some.injEq] at h
      exact h ▸ List.mem_cons_self _ _
    | cons y ys =>
      rw [List.getLast?_cons_cons] at h
      exact List.mem_cons_of_mem _ (ih h)

theorem mem_pathParts_no_slash {p : String} {piece : List Char}
    (h : piece ∈ pathParts p) : '/' ∉ piece := by
  unfold pathParts at h
  exact splitOnChar_pieces (List.mem_of_mem_filter h)

theorem pathNameChars_no_slash (p : String) : '/' ∉ pathNameChars p := by
  unfold pathNameChars
  cases hl : (pathParts p).getLast? with
  | none => simp
  | some name =>
    simp only [Option.getD_some]
    exact mem_pathParts_no_slash (list_mem_of_getLast? hl)

theorem nameStem_subset (name : List Char) : nameStem name ⊆ name := by
  unfold nameStem
  cases rfindIdx '.' name with
  | none => exact fun x hx => hx
  | some i =>
    show (if 0 < i ∧ i < name.length - 1 then List.take i name else name) ⊆ name
    by_cases hc : 0 < i ∧ i < name.length - 1
    · rw [if_pos hc]; exact List.take_subset i name
    · rw [if_neg hc]; exact fun x hx => hx

theorem pathStem_no_slash (p : String) : '/' ∉ (pathStem p).data := by
  unfold pathStem
  rw [mk_data]
  intro h
  exact pathNameChars_no_slash p (nameStem_subset _ h)

theorem lang_suffix_no_slash {language : String} (h : '/' ∉ language.data) :
    '/' ∉ (lang_suffix language).data := by
  unfold lang_suffix
  rw [mk_data]
  intro hmem
  rcases List.mem_map.mp hmem with ⟨ch, hch, heq⟩
  by_cases hsp : ch = ' '
  · rw [if_pos hsp] at heq
    exact absurd heq (by decide)
  · rw [if_neg hsp] at heq
    exact h (lowerChar_eq_slash heq ▸ hch)

theorem pathRoot_no_slash {p : String} (hp : '/' ∉ p.data) : pathRoot p = "" := by
  unfold pathRoot
  split
  · rename_i heq
    exact absurd (heq ▸ List.mem_cons_self '/' _) hp
  · rfl

/-- Whatever `with_suffix` returns ends, character for character, with
the requested suffix. -/
theorem pathWithSuffix_data_ends {p s out : String}
    (h : pathWithSuffix p s = some out) : ∃ q, out.data = q ++ s.data := by
  unfold pathWithSuffix at h
  by_cases hv : suffixArgOk s = false
  · rw [if_pos hv] at h; cases h
  · rw [if_neg hv] at h
    cases hn : (pathParts p).getLast? with
    | none => rw [hn] at h; cases h
    | some name =>
      rw [hn] at h
      simp only [Option.some.injEq] at h
      have hnn : ∃ w, (if (nameSuffix name).isEmpty then name ++ s.data
          else name.take (name.length - (nameSuffix name).length) ++ s.data) = w ++ s.data := by
        split
        · exact ⟨name, rfl⟩
        · exact ⟨_, rfl⟩
      obtain ⟨w, hw⟩ := hnn
      obtain ⟨r, hr⟩ := joinParts_concat ((pathParts p).dropLast) _
      refine ⟨(pathRoot p).data ++ (r ++ w), ?_⟩
      rw [← h, str_data_append, mk_data, hr, hw]
      simp [List.append_assoc]

/-- When the path being suffixed has no separator, neither has the
result of `with_suffix` (the suffix argument is checked by Python). -/
theorem pathWithSuffix_no_slash {p s out : String}
    (hp : '/' ∉ p.data) (h : pathWithSuffix p s = some out) : '/' ∉ out.data := by
  unfold pathWithSuffix at h
  by_cases hv : suffixArgOk s = false
  · rw [if_pos hv] at h; cases h
  · rw [if_neg hv] at h
    have hv' : suffixArgOk s = true := by
      cases hb : suffixArgOk s
      · exact absurd hb hv
      · rfl
    have hsd : '/' ∉ s.data := by
      unfold suffixArgOk at hv'
      have h1 : s.data.contains '/' = false := by
        cases hb : s.data.contains '/'
        · rfl
        · rw [hb] at hv'; simp at hv'
      simpa using h1
    have hsplit : splitOnChar '/' p.data = [p.data] := splitOnChar_no_sep hp
    by_cases hraw : (!p.data.isEmpty && !(p.data == ['.'])) = true
    · have hparts : pathParts p = [p.data] := by
        unfold pathParts
        rw [hsplit]
        simp only [List.filter, hraw]
      rw [hparts] at h
      simp only [List.getLast?_singleton, List.dropLast_single] at h
      simp only [Option.some.injEq] at h
      rw [pathRoot_no_slash hp, str_empty_append] at h
      subst h
      rw [mk_data]
      have hjoin : joinParts ([] ++ [(if (nameSuffix p.data).isEmpty then p.data ++ s.data
          else p.data.take (p.data.length - (nameSuffix p.data).length) ++ s.data)]) =
          (if (nameSuffix p.data).isEmpty then p.data ++ s.data
          else p.data.take (p.data.length - (nameSuffix p.data).length) ++ s.data) := rfl
      rw [hjoin]
      intro hmem
      split at hmem
      · rcases List.mem_append.mp hmem with h1 | h1
        · exact hp h1
        · exact hsd h1
      · rcases List.mem_append.mp hmem with h1 | h1
        · exact hp (List.take_subset _ _ h1)
        · exact hsd h1
    · have hparts : pathParts p = [] := by
        unfold pathParts
        rw [hsplit]
        simp only [List.filter, hraw]
      rw [hparts] at h
      cases h

/-! ## Shape lemmas for the pipeline stages -/

theorem translation_prompt_ne_continue (lang : String) :
    MainPy.Prompts.translation_prompt lang ≠ MainPy.Prompts.DEFAULT_CONTINUE_MESSAGE := by
  intro h
  have h1 : (MainPy.Prompts.translation_prompt lang).data.head? =
      MainPy.Prompts.DEFAULT_CONTINUE_MESSAGE.data.head? := by rw [h]
  have h2 : (MainPy.Prompts.translation_prompt lang).data.head? = some 'T' := rfl
  have h3 : MainPy.Prompts.DEFAULT_CONTINUE_MESSAGE.data.head? = some 'C' := rfl
  rw [h2, h3] at h1
  exact absurd h1 (by decide)

theorem lastText_concat (msgs : List Message) (t : String) :
    lastText (msgs ++ [Message.ai t]) = t := by
  unfold lastText
  rw [List.getLast?_concat]
  rfl

theorem transcribe_shape {stream : Nat → List Chunk} {maxc : Nat} {dis : Bool}
    {filename file_uri mime_type : String} {tevs : List Event} {msgs : List Message}
    (h : MainPy.AudioTranscriber.transcribe stream maxc dis filename file_uri mime_type =
      Except.ok (tevs, msgs)) :
    ∃ n tp tc, n ≤ maxc ∧
      pathWithSuffix filename ".srt" = some tp ∧
      tevs = Event.uploadFile filename ::
        (attemptCalls stream MainPy.Prompts.DEFAULT_CONTINUE_MESSAGE
          [Message.system MainPy.Prompts.DEFAULT_SYSTEM_MESSAGE,
           Message.humanMedia file_uri mime_type] 0 (n + 1) ++
         [Event.writeFile tp tc]) ∧
      msgs = [Message.system MainPy.Prompts.DEFAULT_SYSTEM_MESSAGE,
              Message.humanMedia file_uri mime_type] ++
        contTrail stream MainPy.Prompts.DEFAULT_CONTINUE_MESSAGE 0 n ++
        [Message.ai tc] ∧
      tc = mergeConcat stream
        (if dis then "" else MainPy.TranscriptionConfig.merge_sign) 0 (n + 1) := by
  obtain ⟨n, hn, heq⟩ := gcr_main_spec stream maxc dis
    [Message.system MainPy.Prompts.DEFAULT_SYSTEM_MESSAGE,
     Message.humanMedia file_uri mime_type]
  unfold MainPy.AudioTranscriber.transcribe at h
  rw [heq] at h
  simp only [] at h
  rw [lastText_concat] at h
  unfold MainPy.AudioTranscriber.save_to_srt at h
  cases hs : pathWithSuffix filename ".srt" with
  | none => rw [hs] at h; simp at h
  | some tp =>
    rw [hs] at h
    simp only [Option.map_some'] at h
    rw [Except.ok.injEq, Prod.mk.injEq] at h
    rcases h with ⟨h5, h6⟩
    exact ⟨n, tp, _, hn, rfl, h5.symm, h6.symm, rfl⟩

theorem translate_shape {stream : Nat → List Chunk} {maxc : Nat} {dis : Bool}
    {filename language : String} {msgs0 : List Message} {levs : List Event}
    {lmsgs : List Message}
    (h : MainPy.AudioTranscriber.translate stream maxc dis filename language msgs0 =
      Except.ok (levs, lmsgs)) :
    ∃ n lp lc, n ≤ maxc ∧
      pathWithSuffix
        (MainPy.AudioTranscriber.translation_output_filename filename language) ".srt" =
        some lp ∧
      levs = attemptCalls stream MainPy.Prompts.DEFAULT_CONTINUE_MESSAGE
          (msgs0 ++ [Message.human (MainPy.Prompts.translation_prompt language)]) 0 (n + 1) ++
        [Event.writeFile lp lc] := by
  obtain ⟨n, hn, heq⟩ := gcr_main_spec stream maxc dis
    (msgs0 ++ [Message.human (MainPy.Prompts.translation_prompt language)])
  unfold MainPy.AudioTranscriber.translate at h
  rw [heq] at h
  simp only [] at h
  rw [lastText_concat] at h
  unfold MainPy.AudioTranscriber.save_to_srt at h
  cases hs : pathWithSuffix
      (MainPy.AudioTranscriber.translation_output_filename filename language) ".srt" with
  | none => rw [hs] at h; simp at h
  | some lp =>
    rw [hs] at h
    simp only [Option.map_some'] at h
    rw [Except.ok.injEq, Prod.mk.injEq] at h
    rcases h with ⟨h5, _⟩
    exact ⟨n, lp, _, hn, rfl, h5.symm⟩

theorem prepare_file_shape {iv : Bool} {codec : Option String} {fp processed : String}
    {pevs : List Event}
    (h : MainPy.AudioTranscriber.prepare_file iv codec fp = Except.ok (processed, pevs)) :
    pevs = [] ∨ ∃ o, pevs = [Event.extractAudio fp o] := by
  unfold MainPy.AudioTranscriber.prepare_file at h
  by_cases hv : iv = false
  · rw [if_pos hv] at h
    rw [Except.ok.injEq, Prod.mk.injEq] at h
    exact Or.inl h.2.symm
  · rw [if_neg hv] at h
    cases ho : VideoSplit.get_output_path codec fp with
    | error e => rw [ho] at h; simp at h
    | ok o =>
      rw [ho] at h
      simp only [] at h
      rw [Except.ok.injEq, Prod.mk.injEq] at h
      exact Or.inr ⟨o, h.2.symm⟩

theorem main_ok_shape {c : CmdLine} {w : World} {evs : List Event}
    (hex : w.fileExists = true) (h : MainPy.main c w = Except.ok evs) :
    ∃ processed prep_events tevs msgs,
      MainPy.AudioTranscriber.prepare_file w.isVideo w.audioCodec (parseArgs c).file =
        Except.ok (processed, prep_events) ∧
      MainPy.AudioTranscriber.transcribe w.transcriptionStream
        MainPy.TranscriptionConfig.max_continuations (parseArgs c).disable_merge_sign
        processed w.fileUri w.mimeType = Except.ok (tevs, msgs) ∧
      (((parseArgs c).translate = true ∧
         ∃ levs lmsgs,
           MainPy.AudioTranscriber.translate w.translationStream
             MainPy.TranscriptionConfig.max_continuations (parseArgs c).disable_merge_sign
             processed (parseArgs c).language msgs = Except.ok (levs, lmsgs) ∧
           evs = prep_events ++ tevs ++ levs) ∨
       ((parseArgs c).translate = false ∧ evs = prep_events ++ tevs)) := by
  unfold MainPy.main at h
  rw [hex] at h
  simp only [Bool.true_eq_false, if_false] at h
  cases hp : MainPy.AudioTranscriber.prepare_file w.isVideo w.audioCodec (parseArgs c).file with
  | error e => rw [hp] at h; simp at h
  | ok pr =>
    rcases pr with ⟨processed, prep_events⟩
    rw [hp] at h
    simp only [] at h
    cases htr : MainPy.AudioTranscriber.transcribe w.transcriptionStream
        MainPy.TranscriptionConfig.max_continuations (parseArgs c).disable_merge_sign
        processed w.fileUri w.mimeType with
    | error e => rw [htr] at h; simp at h
    | ok tr =>
      rcases tr with ⟨tevs, msgs⟩
      rw [htr] at h
      simp only [] at h
      refine ⟨processed, prep_events, tevs, msgs, rfl, htr, ?_⟩
      by_cases ht : (parseArgs c).translate = true
      · rw [ht] at h
        simp only [if_true] at h
        cases hl : MainPy.AudioTranscriber.translate w.translationStream
            MainPy.TranscriptionConfig.max_continuations (parseArgs c).disable_merge_sign
            processed (parseArgs c).language msgs with
        | error e => rw [hl] at h; simp at h
        | ok lr =>
          rcases lr with ⟨levs, lmsgs⟩
          rw [hl] at h
          simp only [] at h
          rw [Except.ok.injEq] at h
          exact Or.inl ⟨ht, levs, lmsgs, rfl, h.symm⟩
      · have ht' : (parseArgs c).translate = false := by
          cases hb : (parseArgs c).translate
          · rfl
          · exact absurd hb ht
        rw [ht'] at h
        simp only [Bool.false_eq_true, if_false] at h
        rw [Except.ok.injEq] at h
        exact Or.inr ⟨ht', h.symm⟩

/-! ## Claims -/

/-- C1, counterexample: `is_response_truncated "SAFETY"` is `true`
although `"SAFETY" ≠ "MAX_TOKENS"`, so truncation is not detected
exactly by equality with `'MAX_TOKENS'`; both entry points behave the
same way. -/
theorem C1_counterexample :
    MainPy.AudioTranscriber.is_response_truncated "SAFETY" = true ∧
    ("SAFETY" : String) ≠ "MAX_TOKENS" ∧
    TranscribePy.is_response_truncated "SAFETY" = true := by
  refine ⟨by decide, by decide, by decide⟩

/-- C1, amended: `is_response_truncated finish_reason` returns `True`
iff `finish_reason` is one of `'MAX_TOKENS'`, `'SAFETY'`,
`'BLOCKLIST'`, `'PROHIBITED_CONTENT'`; transcribe.py's copy agrees with
main.py's everywhere. -/
theorem C1_truncation_detection (finish_reason : String) :
    (MainPy.AudioTranscriber.is_response_truncated finish_reason = true ↔
      (finish_reason = "MAX_TOKENS" ∨ finish_reason = "SAFETY" ∨
       finish_reason = "BLOCKLIST" ∨ finish_reason = "PROHIBITED_CONTENT")) ∧
    TranscribePy.is_response_truncated finish_reason =
      MainPy.AudioTranscriber.is_response_truncated finish_reason := by
  refine ⟨?_, tr_is_response_truncated_eq finish_reason⟩
  unfold MainPy.AudioTranscriber.is_response_truncated
    MainPy.AudioTranscriber.TRUNCATED_FINISH_REASONS
  simp

/-- C7: `extract_audio` returns `True` on success, and on any raised
exception it catches it, prints an error line, and returns `False` —
for every kind of exception, including `IndexError`, which is caught by
the blanket `except Exception` clause (the dedicated `except
IndexError` clause is dead code, so its specific message is never
printed). -/
theorem C7_extract_audio_no_propagation (video_path audio_path : String) :
    (VideoSplit.extract_audio video_path audio_path (Except.ok ()) =
      (true, [VideoSplit.extracting_message audio_path])) ∧
    (∀ e, (VideoSplit.extract_audio video_path audio_path (Except.error e)).1 = false) ∧
    (∀ msg, VideoSplit.extract_audio video_path audio_path
        (Except.error (VideoSplit.PyError.fileNotFoundError msg)) =
      (false, [VideoSplit.extracting_message audio_path,
        "Error: File " ++ squote ++ video_path ++ squote ++ " not found."])) ∧
    (∀ msg, VideoSplit.extract_audio video_path audio_path
        (Except.error (VideoSplit.PyError.indexError msg)) =
      (false, [VideoSplit.extracting_message audio_path,
        "An error occurred during extraction: " ++ msg])) ∧
    (∀ msg, VideoSplit.extract_audio video_path audio_path
        (Except.error (VideoSplit.PyError.otherError msg)) =
      (false, [VideoSplit.extracting_message audio_path,
        "An error occurred during extraction: " ++ msg])) := by
  refine ⟨rfl, ?_, fun msg => rfl, fun msg => rfl, fun msg => rfl⟩
  intro e
  cases e <;> rfl

/-- C8: whenever `save_to_srt` writes a file, the path is the input
filename with its suffix replaced by `'.srt'` (so the written name ends
in `.srt`), and the written content is the transcript data unchanged,
character for character; transcribe.py's copy behaves identically on
strings. -/
theorem C8_save_to_srt (transcript_data filename path content : String)
    (h : MainPy.AudioTranscriber.save_to_srt transcript_data filename =
      some (path, content)) :
    content = transcript_data ∧
    content.data = transcript_data.data ∧
    pathWithSuffix filename ".srt" = some path ∧
    (∃ q, path.data = q ++ (".srt").data) ∧
    TranscribePy.save_to_srt transcript_data filename =
      MainPy.AudioTranscriber.save_to_srt transcript_data filename := by
  unfold MainPy.AudioTranscriber.save_to_srt at h
  cases hs : pathWithSuffix filename ".srt" with
  | none => rw [hs] at h; cases h
  | some p =>
    rw [hs] at h
    simp only [Option.map_some'] at h
    rw [Option.some.injEq, Prod.mk.injEq] at h
    rcases h with ⟨h1, h2⟩
    subst h1
    subst h2
    exact ⟨rfl, rfl, rfl, pathWithSuffix_data_ends hs, rfl⟩

/-- C8 witness at a concrete input. -/
theorem C8_witness :
    ("hello" : String) = "hello" ∧
    ("hello" : String).data = ("hello" : String).data ∧
    pathWithSuffix "episode.mp3" ".srt" = some "episode.srt" ∧
    (∃ q, ("episode.srt" : String).data = q ++ (".srt" : String).data) ∧
    TranscribePy.save_to_srt "hello" "episode.mp3" =
      MainPy.AudioTranscriber.save_to_srt "hello" "episode.mp3" :=
  C8_save_to_srt "hello" "episode.mp3" "episode.srt" "hello" rfl

/-- C2, counterexample: in main.py with the merge sign enabled (the
default), a run whose single attempt streams `"a"` and finishes with
`'STOP'` appends a final AIMessage whose content is the merge sign
followed by `"a"` — not the bare concatenation `"a"` of the streamed
partial outputs (the run used exactly one attempt, whose streamed
output was `"a"`). -/
theorem C2_counterexample :
    (((MainPy.AudioTranscriber.get_complete_response
          (fun _ => [⟨"a", some "STOP"⟩]) 10 false [Message.system "s"]).1).getLast? =
      some (Message.ai (MainPy.TranscriptionConfig.merge_sign ++ "a"))) ∧
    MainPy.TranscriptionConfig.merge_sign ++ "a" ≠ "a" ∧
    attemptText (fun _ => [⟨"a", some "STOP"⟩]) 0 = "a" ∧
    (MainPy.AudioTranscriber.get_complete_response
        (fun _ => [⟨"a", some "STOP"⟩]) 10 false [Message.system "s"]).2.1 = 0 := by
  exact ⟨by decide, by decide, by decide, by decide⟩

/-- C2, amended: the complete response appended as the final AIMessage
by `get_complete_response` is the concatenation, in arrival order, of
the streamed partial outputs of its attempts — exactly so in
transcribe.py and in main.py with `--disable-merge-sign`; in main.py
with the merge sign enabled (the default) every segment, including the
first, is prefixed with the merge sign before concatenation. -/
theorem C2_concatenation (stream : Nat → List Chunk) (max_continuations : Nat)
    (messages : List Message) :
    (((TranscribePy.get_complete_response stream messages max_continuations).1).getLast? =
      some (Message.ai (concatSegs stream 0
        ((TranscribePy.get_complete_response stream messages max_continuations).2.1 + 1)))) ∧
    (((MainPy.AudioTranscriber.get_complete_response stream max_continuations
          true messages).1).getLast? =
      some (Message.ai (concatSegs stream 0
        ((MainPy.AudioTranscriber.get_complete_response stream max_continuations
            true messages).2.1 + 1)))) ∧
    (((MainPy.AudioTranscriber.get_complete_response stream max_continuations
          false messages).1).getLast? =
      some (Message.ai (mergeConcat stream MainPy.TranscriptionConfig.merge_sign 0
        ((MainPy.AudioTranscriber.get_complete_response stream max_continuations
            false messages).2.1 + 1)))) := by
  obtain ⟨n1, _, h1⟩ := gcr_tr_spec stream max_continuations messages
  obtain ⟨n2, _, h2⟩ := gcr_main_spec stream max_continuations true messages
  obtain ⟨n3, _, h3⟩ := gcr_main_spec stream max_continuations false messages
  refine ⟨?_, ?_, ?_⟩
  · rw [h1, List.getLast?_concat]
  · rw [h2, List.getLast?_concat]
    simp [mergeConcat_empty_sign]
  · rw [h3, List.getLast?_concat]
    simp

/-- C3: the retry loop is bounded.  For every messages list and every
stream of responses and finish reasons: the returned
`continuation_count` never exceeds `max_continuations`; the number of
streaming attempts (model calls) is exactly `continuation_count + 1`,
hence at most `max_continuations + 1`; the messages list grows by one
(partial response, continuation prompt) pair per continuation plus the
final response, so at most `max_continuations` continuation prompts are
sent; the loop terminates through its `break` — giving it any extra
fuel beyond `max_continuations + 1` iterations changes nothing; and the
default bound is 10 in both entry points. -/
theorem C3_bounded_retries (stream : Nat → List Chunk) (max_continuations : Nat)
    (disable_merge_sign : Bool) (messages : List Message) :
    ((MainPy.AudioTranscriber.get_complete_response stream max_continuations
        disable_merge_sign messages).2.1 ≤ max_continuations) ∧
    ((MainPy.AudioTranscriber.get_complete_response stream max_continuations
        disable_merge_sign messages).2.2.length =
      (MainPy.AudioTranscriber.get_complete_response stream max_continuations
        disable_merge_sign messages).2.1 + 1) ∧
    ((MainPy.AudioTranscriber.get_complete_response stream max_continuations
        disable_merge_sign messages).2.2.length ≤ max_continuations + 1) ∧
    ((MainPy.AudioTranscriber.get_complete_response stream max_continuations
        disable_merge_sign messages).1.length =
      messages.length + 2 * (MainPy.AudioTranscriber.get_complete_response stream
        max_continuations disable_merge_sign messages).2.1 + 1) ∧
    (∀ extra_fuel,
      MainPy.AudioTranscriber.get_complete_response_loop stream max_continuations
          (if disable_merge_sign then "" else MainPy.TranscriptionConfig.merge_sign)
          messages "" 0 (max_continuations + 1 + extra_fuel) =
        MainPy.AudioTranscriber.get_complete_response stream max_continuations
          disable_merge_sign messages) ∧
    ((TranscribePy.get_complete_response stream messages max_continuations).2.1
        ≤ max_continuations) ∧
    ((TranscribePy.get_complete_response stream messages max_continuations).2.2.length
        ≤ max_continuations + 1) ∧
    MainPy.TranscriptionConfig.max_continuations = 10 ∧
    TranscribePy.default_max_continuations = 10 := by
  obtain ⟨n, hn, heq⟩ := gcr_main_spec stream max_continuations disable_merge_sign messages
  obtain ⟨m, hm, heqT⟩ := gcr_tr_spec stream max_continuations messages
  refine ⟨?_, ?_, ?_, ?_, ?_, ?_, ?_, rfl, rfl⟩
  · rw [heq]; exact hn
  · rw [heq]
    exact attemptCalls_length _ _ _ _ _
  · rw [heq]
    rw [attemptCalls_length]
    omega
  · rw [heq]
    simp [contTrail_length]
    omega
  · intro extra_fuel
    unfold MainPy.AudioTranscriber.get_complete_response
    exact gcr_loop_fuel_stable stream max_continuations _ messages _ _ (by omega) (by omega)
  · rw [heqT]; exact hm
  · rw [heqT]
    rw [attemptCalls_length]
    omega

/-- C6: `prepare_file` returns non-video input unchanged; for video
input it extracts audio and returns the input path with its suffix
replaced by `'.' + extension`, where the extension comes from
`extension_map` and falls back to the codec name itself when the codec
is unmapped; transcribe.py's copy is identical. -/
theorem C6_prepare_file (audio_codec : Option String)
    (codec_name file_path out : String) :
    (MainPy.AudioTranscriber.prepare_file false audio_codec file_path =
      Except.ok (file_path, [])) ∧
    (VideoSplit.get_output_path (some codec_name) file_path = Except.ok out →
      MainPy.AudioTranscriber.prepare_file true (some codec_name) file_path =
        Except.ok (out, [Event.extractAudio file_path out])) ∧
    (VideoSplit.get_output_path (some codec_name) file_path = Except.ok out ↔
      pathWithSuffix file_path ("." ++ VideoSplit.get_output_extension codec_name) =
        some out) ∧
    (codec_name ≠ "aac" → codec_name ≠ "mp3" → codec_name ≠ "ac3" →
      codec_name ≠ "opus" → codec_name ≠ "vorbis" → codec_name ≠ "flac" →
      codec_name ≠ "pcm_s16le" →
      VideoSplit.get_output_extension codec_name = codec_name) ∧
    (VideoSplit.get_output_extension "aac" = "aac" ∧
     VideoSplit.get_output_extension "mp3" = "mp3" ∧
     VideoSplit.get_output_extension "ac3" = "ac3" ∧
     VideoSplit.get_output_extension "opus" = "opus" ∧
     VideoSplit.get_output_extension "vorbis" = "ogg" ∧
     VideoSplit.get_output_extension "flac" = "flac" ∧
     VideoSplit.get_output_extension "pcm_s16le" = "wav") ∧
    (∀ b, TranscribePy.prepare_file b audio_codec file_path =
      MainPy.AudioTranscriber.prepare_file b audio_codec file_path) := by
  refine ⟨rfl, ?_, ?_, ?_, by decide, fun b => rfl⟩
  · intro h
    unfold MainPy.AudioTranscriber.prepare_file
    rw [if_neg (by decide), h]
  · constructor
    · intro h
      unfold VideoSplit.get_output_path VideoSplit.get_audio_codec at h
      simp only [] at h
      cases hs : pathWithSuffix file_path ("." ++ VideoSplit.get_output_extension codec_name) with
      | none => rw [hs] at h; cases h
      | some o =>
        rw [hs] at h
        rw [Except.ok.injEq] at h
        rw [h]
    · intro h
      unfold VideoSplit.get_output_path VideoSplit.get_audio_codec
      simp only []
      rw [h]
  · intro h1 h2 h3 h4 h5 h6 h7
    unfold VideoSplit.get_output_extension VideoSplit.extension_map
    have e1 : (codec_name == "aac") = false := by simp [h1]
    have e2 : (codec_name == "mp3") = false := by simp [h2]
    have e3 : (codec_name == "ac3") = false := by simp [h3]
    have e4 : (codec_name == "opus") = false := by simp [h4]
    have e5 : (codec_name == "vorbis") = false := by simp [h5]
    have e6 : (codec_name == "flac") = false := by simp [h6]
    have e7 : (codec_name == "pcm_s16le") = false := by simp [h7]
    simp only [List.lookup, e1, e2, e3, e4, e5, e6, e7, Option.getD_none]

/-- C6 witness at concrete inputs: a `.mp4` containing vorbis audio
gets a `.ogg` output path, and an unmapped codec falls back to its own
name. -/
theorem C6_witness :
    MainPy.AudioTranscriber.prepare_file true (some "vorbis") "movie.mp4" =
      Except.ok ("movie.ogg", [Event.extractAudio "movie.mp4" "movie.ogg"]) ∧
    VideoSplit.get_output_extension "wma" = "wma" := by
  constructor
  · exact (C6_prepare_file (some "vorbis") "vorbis" "movie.mp4" "movie.ogg").2.1 rfl
  · exact (C6_prepare_file (some "vorbis") "wma" "movie.mp4" "movie.ogg").2.2.2.1
      (by decide) (by decide) (by decide) (by decide) (by decide) (by decide) (by decide)

/-- C9: in main.py, unless `--disable-merge-sign` is given, the merge
sign (`'\n' + 24 '=' + 'MERGED' + 24 '=' + '\n'`) is prefixed to every
streamed segment including the first, so the complete response — and
the transcript that `transcribe` saves — begins with the merge-sign
line even when the response finished without any continuation. -/
theorem C9_merge_sign_prepended (stream : Nat → List Chunk) (max_continuations : Nat)
    (messages : List Message) (filename file_uri mime_type : String)
    (tevs : List Event) (tmsgs : List Message) :
    (MainPy.TranscriptionConfig.merge_sign =
      "\n" ++ String.mk (List.replicate 24 '=') ++ "MERGED" ++
        String.mk (List.replicate 24 '=') ++ "\n") ∧
    (((MainPy.AudioTranscriber.get_complete_response stream max_continuations
          false messages).1).getLast? =
      some (Message.ai (mergeConcat stream MainPy.TranscriptionConfig.merge_sign 0
        ((MainPy.AudioTranscriber.get_complete_response stream max_continuations
            false messages).2.1 + 1)))) ∧
    (∃ rest, mergeConcat stream MainPy.TranscriptionConfig.merge_sign 0
        ((MainPy.AudioTranscriber.get_complete_response stream max_continuations
            false messages).2.1 + 1) =
      MainPy.TranscriptionConfig.merge_sign ++ rest) ∧
    (MainPy.AudioTranscriber.transcribe stream max_continuations false
        filename file_uri mime_type = Except.ok (tevs, tmsgs) →
      ∃ tp tc rest, Event.writeFile tp tc ∈ tevs ∧
        tc = MainPy.TranscriptionConfig.merge_sign ++ rest) := by
  obtain ⟨n3, _, h3⟩ := gcr_main_spec stream max_continuations false messages
  refine ⟨rfl, ?_, ?_, ?_⟩
  · rw [h3, List.getLast?_concat]
    simp
  · refine ⟨attemptText stream 0 ++
      mergeConcat stream MainPy.TranscriptionConfig.merge_sign 1
        ((MainPy.AudioTranscriber.get_complete_response stream max_continuations
            false messages).2.1), ?_⟩
    rw [show mergeConcat stream MainPy.TranscriptionConfig.merge_sign 0
        ((MainPy.AudioTranscriber.get_complete_response stream max_continuations
            false messages).2.1 + 1) =
      (MainPy.TranscriptionConfig.merge_sign ++ attemptText stream 0) ++
        mergeConcat stream MainPy.TranscriptionConfig.merge_sign 1
          ((MainPy.AudioTranscriber.get_complete_response stream max_continuations
              false messages).2.1) from rfl]
    rw [str_append_assoc]
  · intro h
    obtain ⟨n, tp, tc, _, _, htevs, _, htc⟩ := transcribe_shape h
    refine ⟨tp, tc, attemptText stream 0 ++
      mergeConcat stream MainPy.TranscriptionConfig.merge_sign 1 n, ?_, ?_⟩
    · rw [htevs]
      exact List.mem_cons_of_mem _ (List.mem_append_right _ (List.mem_singleton.mpr rfl))
    · rw [htc]
      rw [show mergeConcat stream
          (if false then "" else MainPy.TranscriptionConfig.merge_sign) 0 (n + 1) =
        ((if false then "" else MainPy.TranscriptionConfig.merge_sign) ++
            attemptText stream 0) ++
          mergeConcat stream
            (if false then "" else MainPy.TranscriptionConfig.merge_sign) 1 n from rfl]
      simp only [if_neg Bool.false_ne_true]
      rw [str_append_assoc]

/-- C9 witness: a concrete complete single-attempt run whose saved
transcript begins with the merge sign. -/
theorem C9_witness :
    ∃ tevs tmsgs, MainPy.AudioTranscriber.transcribe (fun _ => [⟨"x", some "STOP"⟩]) 10
        false "a.mp3" "u" "m" = Except.ok (tevs, tmsgs) ∧
      ∃ tp tc rest, Event.writeFile tp tc ∈ tevs ∧
        tc = MainPy.TranscriptionConfig.merge_sign ++ rest := by
  refine ⟨_, _, rfl, ?_⟩
  exact (C9_merge_sign_prepended (fun _ => [⟨"x", some "STOP"⟩]) 10 [] "a.mp3" "u" "m"
    _ _).2.2.2 rfl

/-- C10: the translation output path is built from the input filename's
stem (which strips every directory component) plus `'_' + language
suffix`, with suffix `'.srt'`; when the target language itself contains
no separator, the resulting path contains no separator at all — it is
relative to the current working directory and independent of the
directory the input file lies in; transcribe.py builds the same name. -/
theorem C10_translation_output_path (filename target_language out : String)
    (hl : '/' ∉ target_language.data)
    (h : pathWithSuffix
        (MainPy.AudioTranscriber.translation_output_filename filename target_language)
        ".srt" = some out) :
    ('/' ∉ out.data) ∧
    (∀ other : String, pathNameChars other = pathNameChars filename →
      pathWithSuffix
        (MainPy.AudioTranscriber.translation_output_filename other target_language)
        ".srt" = some out) ∧
    TranscribePy.translation_output_filename filename target_language =
      MainPy.AudioTranscriber.translation_output_filename filename target_language := by
  have hno : '/' ∉
      (MainPy.AudioTranscriber.translation_output_filename filename target_language).data := by
    unfold MainPy.AudioTranscriber.translation_output_filename
    rw [str_data_append, str_data_append]
    intro hmem
    rcases List.mem_append.mp hmem with h1 | h1
    · rcases List.mem_append.mp h1 with h2 | h2
      · exact pathStem_no_slash filename h2
      · exact absurd h2 (by decide)
    · exact lang_suffix_no_slash hl h1
  refine ⟨pathWithSuffix_no_slash hno h, ?_, rfl⟩
  intro other hother
  have heq : MainPy.AudioTranscriber.translation_output_filename other target_language =
      MainPy.AudioTranscriber.translation_output_filename filename target_language := by
    unfold MainPy.AudioTranscriber.translation_output_filename pathStem
    rw [hother]
  rw [heq, h]

/-- C10 witness: for an input in another directory the translation file
name has no directory component at all. -/
theorem C10_witness :
    ('/' ∉ ("audio_english.srt" : String).data) ∧
    (∀ other : String, pathNameChars other = pathNameChars "/home/user/audio.mp3" →
      pathWithSuffix
        (MainPy.AudioTranscriber.translation_output_filename other "English") ".srt" =
        some "audio_english.srt") ∧
    TranscribePy.translation_output_filename "/home/user/audio.mp3" "English" =
      MainPy.AudioTranscriber.translation_output_filename "/home/user/audio.mp3" "English" :=
  C10_translation_output_path "/home/user/audio.mp3" "English" "audio_english.srt"
    (by decide) rfl

/-- C4: when the file argument names a nonexistent path, both entry
points print the error line and exit with status 1 — the whole trace is
those two events, with no audio extraction, file upload, model call, or
file write. -/
theorem C4_validation_first (c : CmdLine) (w : World) (h : w.fileExists = false) :
    (MainPy.main c w =
      Except.ok [Event.printError (file_error_message c.file), Event.exitCode 1]) ∧
    (TranscribePy.entry c w =
      Except.ok [Event.printError (file_error_message c.file), Event.exitCode 1]) ∧
    (∀ e ∈ [Event.printError (file_error_message c.file), Event.exitCode 1],
      pipelineWork e = false) := by
  refine ⟨?_, ?_, ?_⟩
  · unfold MainPy.main
    rw [h]
    rfl
  · unfold TranscribePy.entry
    rw [h]
    rfl
  · intro e he
    rcases List.mem_cons.mp he with h1 | h1
    · rw [h1]; rfl
    · rw [List.mem_singleton.mp h1]; rfl

/-- C4 witness at a concrete missing file. -/
theorem C4_witness :
    (MainPy.main ⟨"missing.mp3", false, none, false⟩
        ⟨false, false, none, "", "", (fun _ => []), (fun _ => [])⟩ =
      Except.ok [Event.printError (file_error_message "missing.mp3"), Event.exitCode 1]) ∧
    (TranscribePy.entry ⟨"missing.mp3", false, none, false⟩
        ⟨false, false, none, "", "", (fun _ => []), (fun _ => [])⟩ =
      Except.ok [Event.printError (file_error_message "missing.mp3"), Event.exitCode 1]) ∧
    (∀ e ∈ [Event.printError (file_error_message "missing.mp3"), Event.exitCode 1],
      pipelineWork e = false) :=
  C4_validation_first ⟨"missing.mp3", false, none, false⟩
    ⟨false, false, none, "", "", (fun _ => []), (fun _ => [])⟩ rfl

theorem writesOf_cons_upload (p : String) (rest : List Event) :
    writesOf (Event.uploadFile p :: rest) = writesOf rest := rfl

theorem writesOf_concat_write (l : List Event) (p c : String) :
    writesOf (l ++ [Event.writeFile p c]) = writesOf l ++ [(p, c)] := by
  rw [writesOf_append]; rfl

/-- C5: in every successful run of main.py, when `--no-translate` is
absent the program writes exactly two files — the transcript and then
the translation, both with an `.srt` name — and makes a model call
whose messages contain the translation request for the target language
(which defaults to `'English'`); when `--no-translate` is given,
exactly the transcript file is written and no model call carries the
translation prompt. -/
theorem C5_translation_flag (c : CmdLine) (w : World) (evs : List Event)
    (hex : w.fileExists = true) (h : MainPy.main c w = Except.ok evs) :
    ((parseArgs c).translate = true →
      ∃ tp tc lp lc,
        writesOf evs = [(tp, tc), (lp, lc)] ∧
        (∃ q, tp.data = q ++ (".srt" : String).data) ∧
        (∃ q, lp.data = q ++ (".srt" : String).data) ∧
        (∃ ms, Event.modelCall ms ∈ evs ∧
          Message.human (MainPy.Prompts.translation_prompt (parseArgs c).language) ∈ ms)) ∧
    ((parseArgs c).translate = false →
      ∃ tp tc,
        writesOf evs = [(tp, tc)] ∧
        (∃ q, tp.data = q ++ (".srt" : String).data) ∧
        (∀ ms, Event.modelCall ms ∈ evs →
          Message.human (MainPy.Prompts.translation_prompt (parseArgs c).language) ∉ ms)) ∧
    (c.languageOpt = none → (parseArgs c).language = "English") := by
  obtain ⟨processed, pevs, tevs, msgs, hp, htr, hbranch⟩ := main_ok_shape hex h
  obtain ⟨n, tp, tc, hn, htp, htevs, hmsgs, htc⟩ := transcribe_shape htr
  have hpw : writesOf pevs = [] := by
    rcases prepare_file_shape hp with h0 | ⟨o, h0⟩ <;> rw [h0] <;> rfl
  have hpm : ∀ ms : List Message, Event.modelCall ms ∉ pevs := by
    intro ms hmem
    rcases prepare_file_shape hp with h0 | ⟨o, h0⟩ <;> rw [h0] at hmem <;> simp at hmem
  have htw : writesOf tevs = [(tp, tc)] := by
    rw [htevs, writesOf_cons_upload, writesOf_concat_write, writesOf_attemptCalls]
    rfl
  have htm : ∀ ms, Event.modelCall ms ∈ tevs →
      Message.human (MainPy.Prompts.translation_prompt (parseArgs c).language) ∉ ms := by
    intro ms hmem hTP
    rw [htevs] at hmem
    rcases List.mem_cons.mp hmem with h1 | h1
    · cases h1
    · rcases List.mem_append.mp h1 with h2 | h2
      · obtain ⟨j, hj⟩ := mem_attemptCalls _ _ h2
        rw [Event.modelCall.injEq] at hj
        subst hj
        rcases List.mem_append.mp hTP with h3 | h3
        · simp at h3
        · rcases mem_contTrail _ _ h3 with ⟨j2, hj2⟩ | hj2
          · cases hj2
          · injection hj2 with h4
            exact translation_prompt_ne_continue _ h4
      · rw [List.mem_singleton] at h2
        cases h2
  rcases hbranch with ⟨ht, levs, lmsgs, hl, hevs⟩ | ⟨ht, hevs⟩
  · obtain ⟨m, lp, lc, hm, hlp, hlevs⟩ := translate_shape hl
    refine ⟨?_, ?_, ?_⟩
    · intro _
      refine ⟨tp, tc, lp, lc, ?_, pathWithSuffix_data_ends htp,
        pathWithSuffix_data_ends hlp, ?_⟩
      · rw [hevs, writesOf_append, writesOf_append, hpw, htw, hlevs,
          writesOf_concat_write, writesOf_attemptCalls]
        simp
      · refine ⟨msgs ++
          [Message.human (MainPy.Prompts.translation_prompt (parseArgs c).language)],
          ?_, List.mem_append_right _ (List.mem_singleton.mpr rfl)⟩
        rw [hevs, hlevs]
        apply List.mem_append_right
        apply List.mem_append_left
        rw [show attemptCalls w.translationStream MainPy.Prompts.DEFAULT_CONTINUE_MESSAGE
            (msgs ++ [Message.human
              (MainPy.Prompts.translation_prompt (parseArgs c).language)]) 0 (m + 1) =
          Event.modelCall (msgs ++ [Message.human
              (MainPy.Prompts.translation_prompt (parseArgs c).language)]) ::
            attemptCalls w.translationStream MainPy.Prompts.DEFAULT_CONTINUE_MESSAGE
              ((msgs ++ [Message.human
                (MainPy.Prompts.translation_prompt (parseArgs c).language)]) ++
               [Message.ai (attemptText w.translationStream 0),
                Message.human MainPy.Prompts.DEFAULT_CONTINUE_MESSAGE]) 1 m from rfl]
        exact List.mem_cons_self _ _
    · intro hf
      rw [ht] at hf
      cases hf
    · intro h0
      simp [parseArgs, h0]
  · refine ⟨?_, ?_, ?_⟩
    · intro htv
      rw [ht] at htv
      cases htv
    · intro _
      refine ⟨tp, tc, ?_, pathWithSuffix_data_ends htp, ?_⟩
      · rw [hevs, writesOf_append, hpw, htw]
        simp
      · intro ms hmem hTP
        rw [hevs] at hmem
        rcases List.mem_append.mp hmem with h1 | h1
        · exact hpm ms h1
        · exact htm ms h1 hTP
    · intro h0
      simp [parseArgs, h0]

/-- C5 witness: a concrete successful run with translation enabled
writes exactly the transcript and the translation. -/
theorem C5_witness :
    ∃ evs tp tc lp lc,
      MainPy.main ⟨"a.mp3", false, none, false⟩
          ⟨true, false, none, "u", "audio/mp3", (fun _ => [⟨"hello", some "STOP"⟩]),
           (fun _ => [⟨"bonjour", some "STOP"⟩])⟩ = Except.ok evs ∧
      writesOf evs = [(tp, tc), (lp, lc)] := by
  obtain ⟨tp, tc, lp, lc, hw, _⟩ :=
    (C5_translation_flag ⟨"a.mp3", false, none, false⟩
      ⟨true, false, none, "u", "audio/mp3", (fun _ => [⟨"hello", some "STOP"⟩]),
       (fun _ => [⟨"bonjour", some "STOP"⟩])⟩ _ rfl rfl).1 rfl
  exact ⟨_, tp, tc, lp, lc, rfl, hw⟩

end SmartSubs
